import Mathlib

/-!
Shallow embedding of the encrypted token vault (`src/frontend/src/utils/Vault.ts`)
and the detokenizer (`src/frontend/src/utils/detokenizer.ts`).

Modelling decisions:
* Strings are Lean `String`s (lists of `Char`); the source operates on
  JavaScript strings, ASCII in every construct the claims touch.
* WebCrypto AES-GCM is modelled symbolically: a well-formed ciphertext is the
  constructor `CipherData.enc key iv plain` (ciphertext plus authentication
  tag as one logical unit, exactly as `decryptToken` reconstructs them), and
  `CipherData.corrupt` stands for tampered or corrupted bytes.  Decryption
  succeeds exactly when the key and nonce match, mirroring the AEAD contract;
  otherwise it fails the way `crypto.subtle.decrypt` rejects on a tag mismatch.
* PBKDF2 key derivation is modelled as the deterministic function of
  `(sessionId, challenge)` that it is; the opaque key handle is the pair.
* IndexedDB is an association list keyed by token (`put` is replace-or-append,
  as for an object store with `keyPath: 'token'`); the in-memory `Map` cache is
  modelled the same way.  Asynchronous callback plumbing collapses into direct
  state passing; thrown JS errors become `Except.error` carrying the thrown
  message.
* `crypto.getRandomValues` for the per-store IV is modelled by a fresh-counter
  field `ivCtr` (fresh value per `store` call, which is the property the code
  relies on).
* `getStats` is modelled without the `encryptedSize` field, whose value is a
  float-formatted display string (`Math.log`); the claims only use
  `tokenCount`.
-/

/-- The derived AES key handle: determined by `(sessionId, challenge)`
(PBKDF2 is deterministic in both password and salt). -/
abbrev KeyHandle := String × String

/-- Symbolic AES-GCM ciphertext-plus-tag, see module docstring. -/
inductive CipherData
  | enc (key : KeyHandle) (iv : Nat) (plain : String)
  | corrupt (id : Nat)
  deriving DecidableEq, Repr

/-- The `EncryptedToken` record persisted in IndexedDB:
ciphertext + auth tag (as `cipher`) together with the IV. -/
structure EncRecord where
  cipher : CipherData
  iv : Nat
  deriving DecidableEq, Repr

/-- The mutable state of a `Vault` instance: the private fields of the class. -/
structure VaultState where
  cryptoKey : Option KeyHandle
  cache : List (String × String)
  sessionId : String
  db : List (String × EncRecord)
  ready : Bool
  ivCtr : Nat
  deriving DecidableEq, Repr

/-- A freshly constructed `Vault` (field initialisers of the class). -/
def VaultState.new : VaultState :=
  { cryptoKey := none, cache := [], sessionId := "", db := [], ready := false, ivCtr := 0 }

/-- `VaultStats` from `types.ts` (minus the float-formatted `encryptedSize`). -/
structure VaultStats where
  tokenCount : Nat
  sessionId : String
  cacheSize : Nat
  isReady : Bool
  deriving DecidableEq, Repr

/-- Association-list lookup, the semantics of `Map.get` / IndexedDB `get`. -/
def lookupKV {α : Type} : List (String × α) → String → Option α
  | [], _ => none
  | (k, v) :: rest, key => if k = key then some v else lookupKV rest key

/-- Replace-or-append update, the semantics of `Map.set` / IndexedDB `put`. -/
def putKV {α : Type} : List (String × α) → String → α → List (String × α)
  | [], key, v => [(key, v)]
  | (k, w) :: rest, key, v =>
    if k = key then (key, v) :: rest else (k, w) :: putKV rest key v

/-- Error message thrown by `store`/`retrieve`/`storeFromTokenMap` when the
vault is not ready (Vault.ts:204, :260, :176). -/
def notReadyMsg : String := "[Vault] Vault not ready - initialize first"

/-- `Invalid token format: ${token}` (Vault.ts:210). -/
def invalidFmtMsg (token : String) : String := "Invalid token format: " ++ token

/-- The wrapper `store` puts around any error (Vault.ts:242). -/
def storeFailMsg (e : String) : String := "[Vault] Token storage failed: " ++ e

/-- The wrapper `storeFromTokenMap` puts around any error (Vault.ts:186). -/
def mapFailMsg (e : String) : String := "[Vault] Token map storage failed: " ++ e

/-- Thrown by `decryptToken` on auth-tag failure / corruption (Vault.ts:359). -/
def decryptFailMsg : String :=
  "[Vault] Decryption failed - auth tag verification failed or corrupted data"

/-- Thrown by `decryptToken` when the key is gone (Vault.ts:334). -/
def keyUnavailableMsg : String := "[Vault] CryptoKey not available"

/-- ASCII alphanumeric, the character class `[a-zA-Z0-9]` of the token regexes. -/
def isAlnum (c : Char) : Bool :=
  ('a' ≤ c && c ≤ 'z') || ('A' ≤ c && c ≤ 'Z') || ('0' ≤ c && c ≤ '9')

/-- The six characters of the token marker literal. -/
def TOKEN6 : List Char := ['T', 'O', 'K', 'E', 'N', '_']

/-- Strip a literal character-list from the front, `some rest` on success. -/
def stripPrefixCh : List Char → List Char → Option (List Char)
  | [], cs => some cs
  | _ :: _, [] => none
  | t :: ts, c :: cs => if t = c then stripPrefixCh ts cs else none

/-- `isValidTokenFormat` (Vault.ts:542): the regex test
`^TOKEN_[a-zA-Z0-9]+$`. -/
def isValidTokenFormat (token : String) : Bool :=
  match stripPrefixCh TOKEN6 token.data with
  | some rest => !rest.isEmpty && rest.all isAlnum
  | none => false

/-- `deriveKey` (Vault.ts:107): deterministic in `(sessionId, challenge)`;
the handle is opaque, so the pair itself serves as the derived key. -/
def deriveKey (sessionId challenge : String) : KeyHandle := (sessionId, challenge)

/-- `initialize` (Vault.ts:54): no-op when already ready; rejects empty
credentials; otherwise derives the key, opens storage and sets `ready`.
(Named `initVault` in this development.) -/
def initVault (sessionId challenge : String) (st : VaultState) :
    Except String Unit × VaultState :=
  if st.ready then (Except.ok (), st)
  else if sessionId = "" || challenge = "" then
    (Except.error "[Vault] Session ID and challenge required for initialization", st)
  else
    (Except.ok (),
      { st with sessionId := sessionId,
                cryptoKey := some (deriveKey sessionId challenge),
                ready := true })

/-- `store` (Vault.ts:202): fail-closed readiness check, token-format
validation, fresh IV, symbolic AES-GCM encrypt, IndexedDB `put`, cache `set`. -/
def store (token value : String) (st : VaultState) : Except String Unit × VaultState :=
  match st.ready, st.cryptoKey with
  | true, some key =>
    if isValidTokenFormat token then
      (Except.ok (),
        { st with
            db := putKV st.db token { cipher := CipherData.enc key st.ivCtr value, iv := st.ivCtr },
            cache := putKV st.cache token value,
            ivCtr := st.ivCtr + 1 })
    else (Except.error (storeFailMsg (invalidFmtMsg token)), st)
  | _, _ => (Except.error notReadyMsg, st)

/-- `storeFromTokenMap`'s sequential per-entry loop (Vault.ts:180-183),
wrapping the first error (Vault.ts:186). -/
def storeEntries : List (String × String) → VaultState → Except String Unit × VaultState
  | [], st => (Except.ok (), st)
  | (token, value) :: rest, st =>
    match store token value st with
    | (Except.error e, st') => (Except.error (mapFailMsg e), st')
    | (Except.ok _, st') => storeEntries rest st'

/-- `storeFromTokenMap` (Vault.ts:174): readiness check, then the loop.
The entry list is `Object.entries(tokenMap)`. -/
def storeFromTokenMap (entries : List (String × String)) (st : VaultState) :
    Except String Unit × VaultState :=
  match st.ready, st.cryptoKey with
  | true, some _ => storeEntries entries st
  | _, _ => (Except.error notReadyMsg, st)

/-- `decryptToken` (Vault.ts:332): succeeds iff the record was produced under
the current key and IV (AEAD contract); fails like a GCM tag mismatch
otherwise, and fails when the key handle is absent. -/
def decryptToken (st : VaultState) (record : EncRecord) : Except String String :=
  match st.cryptoKey with
  | none => Except.error keyUnavailableMsg
  | some key =>
    match record.cipher with
    | CipherData.enc key2 iv2 plain =>
      if key2 = key ∧ iv2 = record.iv then Except.ok plain
      else Except.error decryptFailMsg
    | CipherData.corrupt _ => Except.error decryptFailMsg

/-- `retrieve` (Vault.ts:258): fail-closed readiness check (outside the
try/catch); cache hit returns `cache.get(token) || null` (so an empty cached
string surfaces as `null`); on miss, `hasToken` + IndexedDB `get` +
`decryptToken`, with every failure inside the try caught and surfaced as
`null`; a successful decrypt is cached. -/
def retrieve (token : String) (st : VaultState) :
    Except String (Option String) × VaultState :=
  match st.ready, st.cryptoKey with
  | true, some _ =>
    match lookupKV st.cache token with
    | some v => (Except.ok (if v = "" then none else some v), st)
    | none =>
      match lookupKV st.db token with
      | none => (Except.ok none, st)
      | some record =>
        match decryptToken st record with
        | Except.error _ => (Except.ok none, st)
        | Except.ok v => (Except.ok (some v), { st with cache := putKV st.cache token v })
  | _, _ => (Except.error notReadyMsg, st)

/-- `retrieveBatch` (Vault.ts:298): sequential `retrieve` per token; no
try/catch of its own, so an error propagates (with the state mutations of the
earlier iterations kept). -/
def retrieveBatch (tokens : List String) (st : VaultState) :
    Except String (List (String × Option String)) × VaultState :=
  match tokens with
  | [] => (Except.ok [], st)
  | t :: rest =>
    match retrieve t st with
    | (Except.error e, st') => (Except.error e, st')
    | (Except.ok v, st') =>
      match retrieveBatch rest st' with
      | (Except.error e, st'') => (Except.error e, st'')
      | (Except.ok vs, st'') => (Except.ok ((t, v) :: vs), st'')

/-- `wipe` (Vault.ts:400): clear IndexedDB, null the key, clear the cache,
reset the session and readiness. -/
def wipe (st : VaultState) : Except String Unit × VaultState :=
  (Except.ok (),
    { st with db := [], cryptoKey := none, cache := [], sessionId := "", ready := false })

/-- `getStats` (Vault.ts:367) minus the float-formatted `encryptedSize`. -/
def getStats (st : VaultState) : VaultStats :=
  { tokenCount := st.db.length, sessionId := st.sessionId,
    cacheSize := st.cache.length, isReady := st.ready }

/-- One scanning pass of the global regex `/TOKEN_[a-zA-Z0-9]+/g`
(detokenizer.ts:34): leftmost non-overlapping matches, greedy alphanumeric
run, retry at the next character on failure.  `fuel` bounds the recursion and
is immaterial once it is at least the length of the scanned list. -/
def extractAux : Nat → List Char → List (List Char)
  | 0, _ => []
  | _, [] => []
  | fuel + 1, c :: rest =>
    match stripPrefixCh TOKEN6 (c :: rest) with
    | some r2 =>
      match r2 with
      | d :: _ =>
        if isAlnum d then
          (TOKEN6 ++ r2.takeWhile isAlnum) :: extractAux fuel (r2.dropWhile isAlnum)
        else extractAux fuel rest
      | [] => extractAux fuel rest
    | none => extractAux fuel rest

/-- First-occurrence-preserving deduplication, the semantics of
`[...new Set(tokens)]` (detokenizer.ts:58). -/
def dedupFirst (seen : List String) : List String → List String
  | [] => []
  | x :: xs => if seen.contains x then dedupFirst seen xs else x :: dedupFirst (x :: seen) xs

/-- `extractTokens` (detokenizer.ts:56): all regex matches, deduplicated in
order of first occurrence. -/
def extractTokens (text : String) : List String :=
  dedupFirst [] ((extractAux text.data.length text.data).map (fun l => String.mk l))

/-- One pass of `processed.split(token).join(value)` (detokenizer.ts:100):
literal, non-overlapping, leftmost replacement of every occurrence.  `fuel`
as in `extractAux`. -/
def replaceAux (tok val : List Char) : Nat → List Char → List Char
  | _, [] => []
  | 0, cs => cs
  | fuel + 1, c :: rest =>
    match stripPrefixCh tok (c :: rest) with
    | some r2 => val ++ replaceAux tok val fuel r2
    | none => c :: replaceAux tok val fuel rest

/-- Literal replace-all on strings (`split(token).join(value)`). -/
def replaceAll (s tok val : String) : String :=
  String.mk (replaceAux tok.data val.data s.data.length s.data)

/-- The body of the replacement loop of `process` (detokenizer.ts:96-103):
a token with a truthy resolved value (non-null, non-empty) is literally
substituted into the accumulator; a falsy one is skipped. -/
def replaceStep (values : List (String × Option String)) (acc : String)
    (tok : String) : String :=
  match lookupKV values tok with
  | some (some v) => if v = "" then acc else replaceAll acc tok v
  | _ => acc

/-- The replacement loop of `process` (detokenizer.ts:95-103). -/
def applyReplacements (values : List (String × Option String)) (tokens : List String)
    (text : String) : String :=
  tokens.foldl (replaceStep values) text

/-- `process` (detokenizer.ts:75): empty text short-circuit, readiness
fallback, token extraction, batch retrieval (whose error is caught, returning
the original text with whatever cache mutations already happened), then the
replacement loop. -/
def process (st : VaultState) (text : String) : String × VaultState :=
  if text = "" then ("", st)
  else if !st.ready then (text, st)
  else if (extractTokens text).isEmpty then (text, st)
  else
    match retrieveBatch (extractTokens text) st with
    | (Except.error _, st2) => (text, st2)
    | (Except.ok values, st2) => (applyReplacements values (extractTokens text) text, st2)

/-- `combined.lastIndexOf('TOKEN_')` (detokenizer.ts:146) as an option:
index of the last occurrence of the marker literal. -/
def lastTokIdx : List Char → Option Nat
  | [] => none
  | c :: rest =>
    match lastTokIdx rest with
    | some i => some (i + 1)
    | none => if (stripPrefixCh TOKEN6 (c :: rest)).isSome then some 0 else none

/-- `processStream` (detokenizer.ts:138): concatenate buffer and chunk; if the
marker never occurs, emit everything raw; if the alphanumeric run after the
last marker is followed by more text, the last token is complete and the whole
string is processed; otherwise hold back from the last marker on as the new
buffer and process only the text before it. -/
def processStream (st : VaultState) (chunk : String) (buffer : String) :
    (String × String) × VaultState :=
  let combined := buffer ++ chunk
  match lastTokIdx combined.data with
  | none => ((combined, ""), st)
  | some i =>
    if i + 6 + ((combined.data.drop (i + 6)).takeWhile isAlnum).length < combined.data.length then
      (((process st combined).1, ""), (process st combined).2)
    else
      (((process st (String.mk (combined.data.take i))).1, String.mk (combined.data.drop i)),
        (process st (String.mk (combined.data.take i))).2)

/-- The two-chunk streaming experiment of the spec: feed `c1` then `c2`
through `processStream`, threading the returned buffer, then process the final
residual buffer; concatenate everything emitted. -/
def streamTwo (st : VaultState) (c1 c2 : String) : String :=
  ((processStream st c1 "").1.1
      ++ (processStream (processStream st c1 "").2 c2 (processStream st c1 "").1.2).1.1)
    ++ (process
          (processStream (processStream st c1 "").2 c2 (processStream st c1 "").1.2).2
          (processStream (processStream st c1 "").2 c2 (processStream st c1 "").1.2).1.2).1

/-- Substring scan: does `sub` occur in the scanned list?  `fuel` as in
`extractAux`. -/
def hasSubstrAux (sub : List Char) : Nat → List Char → Bool
  | _, [] => (stripPrefixCh sub []).isSome
  | 0, _ :: _ => false
  | fuel + 1, c :: rest =>
    (stripPrefixCh sub (c :: rest)).isSome || hasSubstrAux sub fuel rest

/-- Does `sub` occur as a (contiguous) substring of `s`? -/
def containsSubstr (s sub : String) : Bool :=
  hasSubstrAux sub.data s.data.length s.data

/-- JavaScript truthiness of a `string | null` slot of a batch-retrieval
result: `null` and the empty string are falsy. -/
def isTruthyVal : Option (Option String) → Bool
  | some (some v) => if v = "" then false else true
  | _ => false

/-- A ready vault used by the concrete examples below. -/
def vaultReady : VaultState := (initVault "sess" "chal" VaultState.new).2

/-- Ready vault holding `TOKEN_abc123 -> Alice` and `TOKEN_def456 -> Bob`. -/
def vaultC6 : VaultState :=
  (store "TOKEN_def456" "Bob" (store "TOKEN_abc123" "Alice" vaultReady).2).2

/-- Ready vault additionally holding `TOKEN_x9` mapped to a value full of
regex-special characters (literal-substitution example). -/
def vaultC6b : VaultState := (store "TOKEN_x9" "$&[a-z].*" vaultC6).2

/-- Ready vault holding `TOKEN_abc123 -> Alice` (streaming examples). -/
def vaultStreamEx : VaultState := (store "TOKEN_abc123" "Alice" vaultReady).2

/-- Ready vault holding `TOKEN_ab -> X` (prefix-shadowing example). -/
def vaultShadowEx : VaultState := (store "TOKEN_ab" "X" vaultReady).2

/-- Ready vault whose store holds a corrupted record for `TOKEN_bad`
(no cache entry), as after on-disk tampering. -/
def vaultCorruptEx : VaultState :=
  { vaultReady with db := [("TOKEN_bad", { cipher := CipherData.corrupt 0, iv := 0 })] }

/-- Ready vault after `store "TOKEN_a" ""` (empty-string value). -/
def vaultEmptyValEx : VaultState := (store "TOKEN_a" "" vaultReady).2

theorem lookupKV_putKV {α : Type} (l : List (String × α)) (k k' : String) (v : α) :
    lookupKV (putKV l k' v) k = if k' = k then some v else lookupKV l k := by
  induction l with
  | nil => simp [putKV, lookupKV]
  | cons hd tl ih =>
    obtain ⟨hk, hw⟩ := hd
    by_cases h1 : hk = k'
    · subst h1
      simp only [putKV, if_pos rfl, lookupKV]
      by_cases h2 : hk = k <;> simp [h2]
    · simp only [putKV, if_neg h1, lookupKV]
      by_cases h2 : hk = k
      · subst h2
        have h3 : ¬(k' = hk) := fun h => h1 h.symm
        simp [lookupKV, h3]
      · simp [lookupKV, h2, ih]

theorem store_fields (token value : String) (st : VaultState) :
    (store token value st).2.ready = st.ready ∧
    (store token value st).2.cryptoKey = st.cryptoKey := by
  unfold store
  split
  · split <;> simp
  · simp

/-- Claim C5: whenever `ready == false` (never initialized, or after wipe),
every `store` and every `retrieve` call is rejected with the vault-not-ready
error (fail-closed) and leaves the vault state — storage and cache —
completely unchanged. -/
theorem c5_fail_closed_when_not_ready (st : VaultState) (token value : String)
    (h : st.ready = false) :
    store token value st = (Except.error notReadyMsg, st) ∧
    retrieve token st = (Except.error notReadyMsg, st) := by
  unfold store retrieve
  rw [h]
  cases st.cryptoKey <;> exact ⟨rfl, rfl⟩

/-- Witness for C5 at a concrete input: a freshly constructed, never
initialized vault rejects both operations and is unchanged. -/
theorem c5_witness :
    store "TOKEN_a" "Alice" VaultState.new = (Except.error notReadyMsg, VaultState.new) ∧
    retrieve "TOKEN_a" VaultState.new = (Except.error notReadyMsg, VaultState.new) :=
  c5_fail_closed_when_not_ready VaultState.new "TOKEN_a" "Alice" rfl

/-- Claim C9: calling `initialize` a second time while `ready == true` is a
no-op: it returns without error and leaves the whole vault state (key, cache,
stored records, session) unchanged. -/
theorem c9_initialize_idempotent_when_ready (st : VaultState) (s c : String)
    (h : st.ready = true) :
    initVault s c st = (Except.ok (), st) := by
  unfold initVault
  rw [h]
  rfl

/-- Witness for C9 at a concrete input: re-initializing the ready example
vault (even with different credentials) returns ok and changes nothing. -/
theorem c9_witness :
    initVault "other" "creds" vaultC6 = (Except.ok (), vaultC6) :=
  c9_initialize_idempotent_when_ready vaultC6 "other" "creds" rfl

/-- Counterexample to C3 as stated: on a concrete vault that stored
`TOKEN_abc123` and was then wiped, `retrieve` does not return null — the
readiness check sits outside `retrieve`'s try/catch, so the call is rejected
with the vault-not-ready error. -/
theorem c3_counterexample :
    (retrieve "TOKEN_abc123" (wipe vaultStreamEx).2).1 = Except.error notReadyMsg ∧
    (retrieve "TOKEN_abc123" (wipe vaultStreamEx).2).1 ≠ Except.ok none :=
  ⟨rfl, fun h => Except.noConfusion h⟩

/-- Claim C3 (amended): after `wipe()` on a vault that previously stored a
token, `retrieve` of that token is rejected with the vault-not-ready error
(fail-closed, consistent with C5), not answered with null, and
`getStats().tokenCount` equals 0. -/
theorem c3_wipe_then_retrieve (st : VaultState) (token : String)
    (_hstored : (lookupKV st.db token).isSome = true) :
    (wipe st).1 = Except.ok () ∧
    (retrieve token (wipe st).2).1 = Except.error notReadyMsg ∧
    (getStats (wipe st).2).tokenCount = 0 :=
  ⟨rfl, rfl, rfl⟩

/-- Witness for C3 at a concrete input: the vault that stored
`TOKEN_abc123 -> Alice`, then wiped. -/
theorem c3_witness :
    (wipe vaultStreamEx).1 = Except.ok () ∧
    (retrieve "TOKEN_abc123" (wipe vaultStreamEx).2).1 = Except.error notReadyMsg ∧
    (getStats (wipe vaultStreamEx).2).tokenCount = 0 :=
  c3_wipe_then_retrieve vaultStreamEx "TOKEN_abc123" rfl

/-- Counterexample to C1 as stated: for the valid token `TOKEN_a` and the
plaintext value `""`, `store` succeeds but `retrieve` returns null rather
than the stored value — the cache-hit path returns
`cache.get(token) || null`, and the empty string is falsy. -/
theorem c1_counterexample :
    (store "TOKEN_a" "" vaultReady).1 = Except.ok () ∧
    (retrieve "TOKEN_a" (store "TOKEN_a" "" vaultReady).2).1 = Except.ok none ∧
    (Except.ok (none : Option String) : Except String (Option String)) ≠
      Except.ok (some "") := by
  refine ⟨rfl, rfl, fun h => ?_⟩
  simp at h

/-- Reduction lemma: `store` on a ready vault with a valid token succeeds and
performs the two `put`s plus the IV refresh. -/
theorem store_ok (st : VaultState) (token value : String) (key : KeyHandle)
    (hr : st.ready = true) (hkey : st.cryptoKey = some key)
    (hv : isValidTokenFormat token = true) :
    store token value st =
      (Except.ok (),
        { st with
            db := putKV st.db token
              { cipher := CipherData.enc key st.ivCtr value, iv := st.ivCtr },
            cache := putKV st.cache token value,
            ivCtr := st.ivCtr + 1 }) := by
  unfold store
  rw [hr, hkey, hv]
  rfl

/-- Reduction lemma: `retrieve` on a ready vault with a cache hit. -/
theorem retrieve_cache_hit (st : VaultState) (token v : String) (key : KeyHandle)
    (hr : st.ready = true) (hkey : st.cryptoKey = some key)
    (hc : lookupKV st.cache token = some v) :
    retrieve token st = (Except.ok (if v = "" then none else some v), st) := by
  unfold retrieve
  rw [hr, hkey, hc]

/-- Reduction lemma: `retrieve` on a ready vault, token in neither cache nor
store. -/
theorem retrieve_absent (st : VaultState) (token : String) (key : KeyHandle)
    (hr : st.ready = true) (hkey : st.cryptoKey = some key)
    (hc : lookupKV st.cache token = none) (hd : lookupKV st.db token = none) :
    retrieve token st = (Except.ok none, st) := by
  unfold retrieve
  rw [hr, hkey, hc, hd]

/-- Reduction lemma: `retrieve` on a ready vault, cache miss, stored record
fails to decrypt: the error is caught and null returned. -/
theorem retrieve_decrypt_error (st : VaultState) (token : String) (key : KeyHandle)
    (record : EncRecord) (e : String)
    (hr : st.ready = true) (hkey : st.cryptoKey = some key)
    (hc : lookupKV st.cache token = none) (hd : lookupKV st.db token = some record)
    (he : decryptToken st record = Except.error e) :
    retrieve token st = (Except.ok none, st) := by
  unfold retrieve
  rw [hr, hkey, hc, hd]
  simp [he]

/-- Reduction lemma: `retrieve` on a ready vault, cache miss, stored record
decrypts: the value is returned and cached. -/
theorem retrieve_decrypt_ok (st : VaultState) (token : String) (key : KeyHandle)
    (record : EncRecord) (v : String)
    (hr : st.ready = true) (hkey : st.cryptoKey = some key)
    (hc : lookupKV st.cache token = none) (hd : lookupKV st.db token = some record)
    (he : decryptToken st record = Except.ok v) :
    retrieve token st = (Except.ok (some v), { st with cache := putKV st.cache token v }) := by
  unfold retrieve
  rw [hr, hkey, hc, hd]
  simp [he]

/-- Claim C1 (amended): for every token matching `^TOKEN_[A-Za-z0-9]+$` and
every non-empty plaintext value, on a ready vault a successful
`store(token, value)` followed by `retrieve(token)` returns exactly `value`;
for the empty-string value the round trip returns null instead. -/
theorem c1_store_retrieve_roundtrip (st : VaultState) (token value : String)
    (hr : st.ready = true) (hk : st.cryptoKey.isSome = true)
    (hv : isValidTokenFormat token = true) (hne : value ≠ "") :
    (store token value st).1 = Except.ok () ∧
    (retrieve token (store token value st).2).1 = Except.ok (some value) := by
  obtain ⟨key, hkey⟩ := Option.isSome_iff_exists.mp hk
  have h2 : (store token value st).2 =
      { st with
          db := putKV st.db token
            { cipher := CipherData.enc key st.ivCtr value, iv := st.ivCtr },
          cache := putKV st.cache token value,
          ivCtr := st.ivCtr + 1 } := by
    rw [store_ok st token value key hr hkey hv]
  refine ⟨by rw [store_ok st token value key hr hkey hv], ?_⟩
  rw [h2, retrieve_cache_hit
    { st with
        db := putKV st.db token
          { cipher := CipherData.enc key st.ivCtr value, iv := st.ivCtr },
        cache := putKV st.cache token value,
        ivCtr := st.ivCtr + 1 }
    token value key hr hkey (by rw [lookupKV_putKV]; simp)]
  simp [hne]

/-- Witness for C1 at a concrete input: `TOKEN_n1 -> Alice` round-trips on the
ready example vault. -/
theorem c1_witness :
    (store "TOKEN_n1" "Alice" vaultReady).1 = Except.ok () ∧
    (retrieve "TOKEN_n1" (store "TOKEN_n1" "Alice" vaultReady).2).1 =
      Except.ok (some "Alice") :=
  c1_store_retrieve_roundtrip vaultReady "TOKEN_n1" "Alice" rfl rfl (by decide)
    (by decide)

/-- Claim C4: on a ready vault `retrieve` never throws: it answers
`Except.ok` in every case; it returns null when the token is in neither cache
nor store; and it returns null (rather than propagating the error) when the
stored record's decryption fails, e.g. for corrupted ciphertext or an
authentication-tag mismatch. -/
theorem c4_retrieve_never_throws (st : VaultState) (token : String)
    (hr : st.ready = true) (hk : st.cryptoKey.isSome = true) :
    (∃ r st2, retrieve token st = (Except.ok r, st2)) ∧
    (lookupKV st.cache token = none → lookupKV st.db token = none →
      retrieve token st = (Except.ok none, st)) ∧
    (∀ record : EncRecord, lookupKV st.cache token = none →
      lookupKV st.db token = some record →
      (∃ e, decryptToken st record = Except.error e) →
      retrieve token st = (Except.ok none, st)) := by
  obtain ⟨key, hkey⟩ := Option.isSome_iff_exists.mp hk
  refine ⟨?_, ?_, ?_⟩
  · cases hc : lookupKV st.cache token with
    | some v => exact ⟨_, _, retrieve_cache_hit st token v key hr hkey hc⟩
    | none =>
      cases hd : lookupKV st.db token with
      | none => exact ⟨_, _, retrieve_absent st token key hr hkey hc hd⟩
      | some record =>
        cases hdec : decryptToken st record with
        | error e => exact ⟨_, _, retrieve_decrypt_error st token key record e hr hkey hc hd hdec⟩
        | ok v => exact ⟨_, _, retrieve_decrypt_ok st token key record v hr hkey hc hd hdec⟩
  · intro hc hd
    exact retrieve_absent st token key hr hkey hc hd
  · rintro record hc hd ⟨e, he⟩
    exact retrieve_decrypt_error st token key record e hr hkey hc hd he

/-- Witness for C4 at concrete inputs: on the ready vault with a corrupted
record for `TOKEN_bad`, retrieval of the corrupted token and of an absent
token both yield null without an error. -/
theorem c4_witness :
    retrieve "TOKEN_bad" vaultCorruptEx = (Except.ok none, vaultCorruptEx) ∧
    retrieve "TOKEN_missing" vaultCorruptEx = (Except.ok none, vaultCorruptEx) :=
  ⟨(c4_retrieve_never_throws vaultCorruptEx "TOKEN_bad" rfl rfl).2.2
      { cipher := CipherData.corrupt 0, iv := 0 } rfl rfl ⟨decryptFailMsg, rfl⟩,
    (c4_retrieve_never_throws vaultCorruptEx "TOKEN_missing" rfl rfl).2.1 rfl rfl⟩

/-- A replacement step with a falsy (absent, null, or empty) value is a
no-op. -/
theorem replaceStep_falsy (values : List (String × Option String)) (acc tok : String)
    (h : isTruthyVal (lookupKV values tok) = false) :
    replaceStep values acc tok = acc := by
  unfold replaceStep
  cases hv : lookupKV values tok with
  | none => rfl
  | some o =>
    cases o with
    | none => rfl
    | some v =>
      rw [hv] at h
      unfold isTruthyVal at h
      by_cases hvv : v = ""
      · simp [hvv]
      · simp [hvv] at h

/-- The replacement loop leaves the text unchanged when every token's
resolution is falsy. -/
theorem applyReplacements_falsy (values : List (String × Option String))
    (tokens : List String) (text : String)
    (h : ∀ tok ∈ tokens, isTruthyVal (lookupKV values tok) = false) :
    applyReplacements values tokens text = text := by
  induction tokens generalizing text with
  | nil => rfl
  | cons t ts ih =>
    unfold applyReplacements
    rw [List.foldl_cons, replaceStep_falsy values text t (h t (List.mem_cons_self t ts))]
    exact ih text (fun tok htok => h tok (List.mem_cons_of_mem t htok))

/-- `process` on a non-ready vault returns the text unchanged. -/
theorem process_not_ready (st : VaultState) (text : String) (h : st.ready = false) :
    process st text = (text, st) := by
  unfold process
  by_cases ht : text = ""
  · subst ht
    rfl
  · rw [if_neg ht, h]
    rfl

/-- `process` on a text without tokens returns it unchanged. -/
theorem process_extract_nil (st : VaultState) (text : String)
    (h : extractTokens text = []) :
    process st text = (text, st) := by
  unfold process
  by_cases ht : text = ""
  · subst ht
    rfl
  · rw [if_neg ht, h]
    cases hr : st.ready <;> rfl

/-- `process` on a ready vault with tokens, when the batch retrieval errors:
the catch returns the original text (with the batch's state mutations). -/
theorem process_batch_error (st st2 : VaultState) (text e : String)
    (hne : text ≠ "") (hr : st.ready = true) (hnil : extractTokens text ≠ [])
    (hb : retrieveBatch (extractTokens text) st = (Except.error e, st2)) :
    process st text = (text, st2) := by
  unfold process
  rw [if_neg hne, hr]
  rw [if_neg (show ¬((!true) = true) by decide)]
  rw [if_neg (show ¬((extractTokens text).isEmpty = true) by
    cases hx : extractTokens text with
    | nil => exact absurd hx hnil
    | cons a l => simp)]
  rw [hb]

/-- `process` on a ready vault with tokens, when the batch retrieval
succeeds: the replacement loop runs on its values. -/
theorem process_batch_ok (st st2 : VaultState) (text : String)
    (values : List (String × Option String))
    (hne : text ≠ "") (hr : st.ready = true) (hnil : extractTokens text ≠ [])
    (hb : retrieveBatch (extractTokens text) st = (Except.ok values, st2)) :
    process st text = (applyReplacements values (extractTokens text) text, st2) := by
  unfold process
  rw [if_neg hne, hr]
  rw [if_neg (show ¬((!true) = true) by decide)]
  rw [if_neg (show ¬((extractTokens text).isEmpty = true) by
    cases hx : extractTokens text with
    | nil => exact absurd hx hnil
    | cons a l => simp)]
  rw [hb]

/-- Claim C7 (amended): `process` never raises to its caller.  If the vault
is not ready the original text is returned unchanged; if the internal batch
retrieval errors, the error is caught and the original text is returned
unchanged; and if every token of the text resolves to a falsy value (null or
empty), the text is returned unchanged.  (When some tokens resolve and others
do not, an unresolved token is never substituted itself, but its occurrences
can still be corrupted by the literal substitution of a resolved token whose
name is a proper prefix of it — see the counterexample.) -/
theorem c7_process_fail_safe (st : VaultState) (text : String) :
    (st.ready = false → (process st text).1 = text) ∧
    (∀ e st2, retrieveBatch (extractTokens text) st = (Except.error e, st2) →
      (process st text).1 = text) ∧
    (∀ values st2, retrieveBatch (extractTokens text) st = (Except.ok values, st2) →
      (∀ tok ∈ extractTokens text, isTruthyVal (lookupKV values tok) = false) →
      (process st text).1 = text) := by
  refine ⟨?_, ?_, ?_⟩
  · intro h
    rw [process_not_ready st text h]
  · intro e st2 hb
    cases hready : st.ready with
    | false => rw [process_not_ready st text hready]
    | true =>
      cases hext : extractTokens text with
      | nil =>
        rw [hext] at hb
        simp [retrieveBatch] at hb
      | cons a l =>
        rw [process_batch_error st st2 text e ?_ hready ?_ hb]
        · intro h0
          rw [h0] at hext
          simp [extractTokens, extractAux, dedupFirst] at hext
        · rw [hext]
          simp
  · intro values st2 hb hfalsy
    cases hready : st.ready with
    | false => rw [process_not_ready st text hready]
    | true =>
      cases hext : extractTokens text with
      | nil => rw [process_extract_nil st text hext]
      | cons a l =>
        rw [process_batch_ok st st2 text values ?_ hready ?_ hb]
        · exact applyReplacements_falsy values (extractTokens text) text hfalsy
        · intro h0
          rw [h0] at hext
          simp [extractTokens, extractAux, dedupFirst] at hext
        · rw [hext]
          simp

/-- Counterexample to C7 as stated: with `TOKEN_ab -> X` stored and
`TOKEN_abc` unknown, processing `"TOKEN_ab TOKEN_abc"` yields `"X Xc"` — the
unresolved token `TOKEN_abc` does not appear verbatim in the output, because
the literal substitution of the resolved prefix token rewrote part of it. -/
theorem c7_counterexample :
    extractTokens "TOKEN_ab TOKEN_abc" = ["TOKEN_ab", "TOKEN_abc"] ∧
    (retrieve "TOKEN_abc" vaultShadowEx).1 = Except.ok none ∧
    (process vaultShadowEx "TOKEN_ab TOKEN_abc").1 = "X Xc" ∧
    containsSubstr "X Xc" "TOKEN_abc" = false :=
  ⟨by decide, rfl, by decide, by decide⟩

/-- Witness for C7 at concrete inputs: a non-ready vault returns the text
with its token visible, and a ready vault whose only token resolves to the
falsy empty string also returns the text unchanged. -/
theorem c7_witness :
    (process VaultState.new "call TOKEN_q now").1 = "call TOKEN_q now" ∧
    (process vaultEmptyValEx "hi TOKEN_a!").1 = "hi TOKEN_a!" :=
  ⟨(c7_process_fail_safe VaultState.new "call TOKEN_q now").1 rfl,
    (c7_process_fail_safe vaultEmptyValEx "hi TOKEN_a!").2.2 [("TOKEN_a", none)]
      vaultEmptyValEx rfl (by decide)⟩

/-- Claim C6: on the ready vault holding `TOKEN_abc123 -> Alice` and
`TOKEN_def456 -> Bob`, processing the spec's example text yields
`"Hello Alice, meet Bob."`; and the substitution is literal — a value made of
regex-special characters is inserted verbatim. -/
theorem c6_process_example :
    (process vaultC6 "Hello TOKEN_abc123, meet TOKEN_def456.").1 =
      "Hello Alice, meet Bob." ∧
    (process vaultC6b "A TOKEN_x9 B").1 = "A $&[a-z].* B" :=
  ⟨by decide, by decide⟩

/-- A singleton batch retrieval reduces to one `retrieve`. -/
theorem retrieveBatch_single (st st2 : VaultState) (token : String) (r : Option String)
    (h : retrieve token st = (Except.ok r, st2)) :
    retrieveBatch [token] st = (Except.ok [(token, r)], st2) := by
  unfold retrieveBatch
  rw [h]
  rfl

/-- If a text's only token retrieves to a falsy value, `process` leaves the
text unchanged. -/
theorem process_single_falsy (st st2 : VaultState) (token : String) (r : Option String)
    (htr : retrieve token st = (Except.ok r, st2)) (hfal : isTruthyVal (some r) = false) :
    ∀ text, extractTokens text = [token] → (process st text).1 = text := by
  intro text hext
  have hne : text ≠ "" := by
    intro h0
    rw [h0] at hext
    simp [extractTokens, extractAux, dedupFirst] at hext
  cases hready : st.ready with
  | false => rw [process_not_ready st text hready]
  | true =>
    have hb : retrieveBatch (extractTokens text) st = (Except.ok [(token, r)], st2) := by
      rw [hext]
      exact retrieveBatch_single st st2 token r htr
    rw [process_batch_ok st st2 text [(token, r)] hne hready (by rw [hext]; simp) hb]
    exact applyReplacements_falsy [(token, r)] (extractTokens text) text
      (by
        intro tok htok
        rw [hext] at htok
        rw [List.mem_singleton] at htok
        subst htok
        simp [lookupKV]
        exact hfal)

/-- Counterexample to C10 as stated: on a ready vault holding `TOKEN_ab -> X`,
after a successful `store("TOKEN_abc", "")` — so the empty-valued token is
stored and retrieves as null — processing `"TOKEN_ab TOKEN_abc"` yields
`"X Xc"`: the empty-valued token is not left verbatim, because the literal
substitution of the resolved prefix token `TOKEN_ab` rewrote part of it. -/
theorem c10_counterexample :
    (store "TOKEN_abc" "" vaultShadowEx).1 = Except.ok () ∧
    (retrieve "TOKEN_abc" (store "TOKEN_abc" "" vaultShadowEx).2).1 = Except.ok none ∧
    (process (store "TOKEN_abc" "" vaultShadowEx).2 "TOKEN_ab TOKEN_abc").1 = "X Xc" ∧
    containsSubstr "X Xc" "TOKEN_abc" = false :=
  ⟨rfl, rfl, by decide, by decide⟩

/-- Claim C10 (amended): on a ready vault, after a successful
`store(token, "")`, `retrieve(token)` returns null rather than the empty
string, and the detokenizer leaves a text verbatim whenever that token is the
text's only token — its own loop iteration never substitutes it.  (When other
tokens are present, occurrences of the empty-valued token can still be
corrupted by the literal substitution of a resolved token whose name is a
proper prefix of it, exactly as for unresolved tokens in C7 — see the
counterexample.) -/
theorem c10_empty_value_indistinguishable (st : VaultState) (token : String)
    (hr : st.ready = true) (hk : st.cryptoKey.isSome = true)
    (hv : isValidTokenFormat token = true) :
    (store token "" st).1 = Except.ok () ∧
    (retrieve token (store token "" st).2).1 = Except.ok none ∧
    (∀ text, extractTokens text = [token] → (process (store token "" st).2 text).1 = text) := by
  obtain ⟨key, hkey⟩ := Option.isSome_iff_exists.mp hk
  have h2 : (store token "" st).2 =
      { st with
          db := putKV st.db token
            { cipher := CipherData.enc key st.ivCtr "", iv := st.ivCtr },
          cache := putKV st.cache token "",
          ivCtr := st.ivCtr + 1 } := by
    rw [store_ok st token "" key hr hkey hv]
  have hret : retrieve token
      { st with
          db := putKV st.db token
            { cipher := CipherData.enc key st.ivCtr "", iv := st.ivCtr },
          cache := putKV st.cache token "",
          ivCtr := st.ivCtr + 1 } =
      (Except.ok none,
        { st with
            db := putKV st.db token
              { cipher := CipherData.enc key st.ivCtr "", iv := st.ivCtr },
            cache := putKV st.cache token "",
            ivCtr := st.ivCtr + 1 }) := by
    have h3 := retrieve_cache_hit
      { st with
          db := putKV st.db token
            { cipher := CipherData.enc key st.ivCtr "", iv := st.ivCtr },
          cache := putKV st.cache token "",
          ivCtr := st.ivCtr + 1 }
      token "" key hr hkey (by rw [lookupKV_putKV]; simp)
    simpa using h3
  refine ⟨by rw [store_ok st token "" key hr hkey hv], ?_, ?_⟩
  · rw [h2, hret]
  · rw [h2]
    exact process_single_falsy _ _ token none hret rfl

/-- Witness for C10 at concrete inputs: storing `TOKEN_a -> ""` on the ready
example vault, then retrieving and processing. -/
theorem c10_witness :
    (store "TOKEN_a" "" vaultReady).1 = Except.ok () ∧
    (retrieve "TOKEN_a" (store "TOKEN_a" "" vaultReady).2).1 = Except.ok none ∧
    (process (store "TOKEN_a" "" vaultReady).2 "hi TOKEN_a!").1 = "hi TOKEN_a!" :=
  ⟨(c10_empty_value_indistinguishable vaultReady "TOKEN_a" rfl rfl (by decide)).1,
    (c10_empty_value_indistinguishable vaultReady "TOKEN_a" rfl rfl (by decide)).2.1,
    (c10_empty_value_indistinguishable vaultReady "TOKEN_a" rfl rfl (by decide)).2.2
      "hi TOKEN_a!" (by decide)⟩

/-- Reduction lemma: `store` on a ready vault rejects a malformed token
before any crypto or storage work, leaving the state unchanged. -/
theorem store_invalid (st : VaultState) (token value : String) (key : KeyHandle)
    (hr : st.ready = true) (hkey : st.cryptoKey = some key)
    (hv : isValidTokenFormat token = false) :
    store token value st = (Except.error (storeFailMsg (invalidFmtMsg token)), st) := by
  unfold store
  rw [hr, hkey, hv]
  rfl

/-- On a ready vault `storeFromTokenMap` is its sequential entry loop. -/
theorem storeFromTokenMap_ready (entries : List (String × String)) (st : VaultState)
    (key : KeyHandle) (hr : st.ready = true) (hkey : st.cryptoKey = some key) :
    storeFromTokenMap entries st = storeEntries entries st := by
  unfold storeFromTokenMap
  rw [hr, hkey]

/-- Reduction lemma: `store` on a non-ready vault fails closed. -/
theorem store_not_ready (st : VaultState) (t v : String) (h : st.ready = false) :
    store t v st = (Except.error notReadyMsg, st) := by
  unfold store
  rw [h]

/-- Reduction lemma: `store` without a key handle fails closed. -/
theorem store_none_key (st : VaultState) (t v : String) (h : st.cryptoKey = none) :
    store t v st = (Except.error notReadyMsg, st) := by
  unfold store
  rw [h]
  cases hr : st.ready <;> rfl

/-- Storing any single entry can only add presence to the store: a token
already present in the database stays present. -/
theorem store_db_mono (st : VaultState) (t v x : String)
    (h : (lookupKV st.db x).isSome = true) :
    (lookupKV (store t v st).2.db x).isSome = true := by
  cases hr : st.ready with
  | false =>
    rw [store_not_ready st t v hr]
    exact h
  | true =>
    cases hkey : st.cryptoKey with
    | none =>
      rw [store_none_key st t v hkey]
      exact h
    | some key =>
      by_cases hv : isValidTokenFormat t = true
      · rw [store_ok st t v key hr hkey hv]
        show (lookupKV
          (putKV st.db t { cipher := CipherData.enc key st.ivCtr v, iv := st.ivCtr })
          x).isSome = true
        rw [lookupKV_putKV]
        by_cases ht : t = x
        · rw [if_pos ht]
          rfl
        · rw [if_neg ht]
          exact h
      · rw [Bool.not_eq_true] at hv
        rw [store_invalid st t v key hr hkey hv]
        exact h

/-- The entry loop preserves database presence. -/
theorem storeEntries_db_mono (entries : List (String × String)) (st : VaultState)
    (x : String) (h : (lookupKV st.db x).isSome = true) :
    (lookupKV (storeEntries entries st).2.db x).isSome = true := by
  induction entries generalizing st with
  | nil => exact h
  | cons e rest ih =>
    obtain ⟨t, v⟩ := e
    unfold storeEntries
    cases hs : store t v st with
    | mk r st' =>
      have hmono := store_db_mono st t v x h
      rw [hs] at hmono
      cases r with
      | error msg => exact hmono
      | ok u => exact ih st' hmono

/-- The entry loop on all-valid entries over a ready vault succeeds and
preserves readiness and the key. -/
theorem storeEntries_ok (entries : List (String × String)) (st : VaultState)
    (key : KeyHandle) (hr : st.ready = true) (hkey : st.cryptoKey = some key)
    (hval : ∀ e ∈ entries, isValidTokenFormat e.1 = true) :
    (storeEntries entries st).1 = Except.ok () ∧
    (storeEntries entries st).2.ready = true ∧
    (storeEntries entries st).2.cryptoKey = some key := by
  induction entries generalizing st with
  | nil => exact ⟨rfl, hr, hkey⟩
  | cons e rest ih =>
    obtain ⟨t, v⟩ := e
    have hv : isValidTokenFormat t = true := hval (t, v) (List.mem_cons_self _ _)
    unfold storeEntries
    rw [store_ok st t v key hr hkey hv]
    exact ih _ hr hkey (fun e he => hval e (List.mem_cons_of_mem _ he))

/-- The entry loop on all-valid entries leaves every entry's token present in
the database. -/
theorem storeEntries_db_mem (entries : List (String × String)) (st : VaultState)
    (key : KeyHandle) (hr : st.ready = true) (hkey : st.cryptoKey = some key)
    (hval : ∀ e ∈ entries, isValidTokenFormat e.1 = true) :
    ∀ e ∈ entries, (lookupKV (storeEntries entries st).2.db e.1).isSome = true := by
  induction entries generalizing st with
  | nil => intro e he; cases he
  | cons hd rest ih =>
    obtain ⟨t, v⟩ := hd
    have hv : isValidTokenFormat t = true := hval (t, v) (List.mem_cons_self _ _)
    intro e he
    unfold storeEntries
    rw [store_ok st t v key hr hkey hv]
    rcases List.mem_cons.mp he with heq | hmem
    · subst heq
      refine storeEntries_db_mono rest
        { st with
            db := putKV st.db t { cipher := CipherData.enc key st.ivCtr v, iv := st.ivCtr },
            cache := putKV st.cache t v,
            ivCtr := st.ivCtr + 1 } t ?_
      show (lookupKV
        (putKV st.db t { cipher := CipherData.enc key st.ivCtr v, iv := st.ivCtr })
        t).isSome = true
      rw [lookupKV_putKV, if_pos rfl]
      rfl
    · exact ih
        { st with
            db := putKV st.db t { cipher := CipherData.enc key st.ivCtr v, iv := st.ivCtr },
            cache := putKV st.cache t v,
            ivCtr := st.ivCtr + 1 }
        hr hkey (fun e2 he2 => hval e2 (List.mem_cons_of_mem _ he2)) e hmem

/-- The entry loop stops at the first invalid entry, surfaces its wrapped
error, and leaves exactly the earlier entries' effects in place. -/
theorem storeEntries_first_error (pre : List (String × String)) (bad : String × String)
    (rest : List (String × String)) (st : VaultState) (key : KeyHandle)
    (hr : st.ready = true) (hkey : st.cryptoKey = some key)
    (hpre : ∀ e ∈ pre, isValidTokenFormat e.1 = true)
    (hbad : isValidTokenFormat bad.1 = false) :
    storeEntries (pre ++ bad :: rest) st =
      (Except.error (mapFailMsg (storeFailMsg (invalidFmtMsg bad.1))),
        (storeEntries pre st).2) := by
  induction pre generalizing st with
  | nil =>
    obtain ⟨bt, bv⟩ := bad
    simp only [List.nil_append]
    unfold storeEntries
    rw [store_invalid st bt bv key hr hkey hbad]
  | cons hd tl ih =>
    obtain ⟨t, v⟩ := hd
    have hv : isValidTokenFormat t = true := hpre (t, v) (List.mem_cons_self _ _)
    simp only [List.cons_append]
    unfold storeEntries
    rw [store_ok st t v key hr hkey hv]
    exact ih _ hr hkey (fun e he => hpre e (List.mem_cons_of_mem _ he))

/-- Claim C8: `storeFromTokenMap` stores entries one at a time in sequence;
if some entry fails (here: the first malformed token), the operation stops
there and surfaces that first error (wrapped by the store and map layers),
while all entries stored before the failing one remain stored — no
rollback. -/
theorem c8_store_from_map_first_error (st : VaultState)
    (pre : List (String × String)) (bad : String × String)
    (rest : List (String × String))
    (hr : st.ready = true) (hk : st.cryptoKey.isSome = true)
    (hpre : ∀ e ∈ pre, isValidTokenFormat e.1 = true)
    (hbad : isValidTokenFormat bad.1 = false) :
    storeFromTokenMap (pre ++ bad :: rest) st =
      (Except.error (mapFailMsg (storeFailMsg (invalidFmtMsg bad.1))),
        (storeFromTokenMap pre st).2) ∧
    (storeFromTokenMap pre st).1 = Except.ok () ∧
    (∀ e ∈ pre, (lookupKV (storeFromTokenMap pre st).2.db e.1).isSome = true) := by
  obtain ⟨key, hkey⟩ := Option.isSome_iff_exists.mp hk
  rw [storeFromTokenMap_ready (pre ++ bad :: rest) st key hr hkey,
    storeFromTokenMap_ready pre st key hr hkey]
  exact ⟨storeEntries_first_error pre bad rest st key hr hkey hpre hbad,
    (storeEntries_ok pre st key hr hkey hpre).1,
    storeEntries_db_mem pre st key hr hkey hpre⟩

/-- Witness for C8 at a concrete input: storing
`TOKEN_a -> 1, BAD -> 2, TOKEN_c -> 3` on the ready example vault fails at
`BAD` with the wrapped first error, while `TOKEN_a` remains stored. -/
theorem c8_witness :
    storeFromTokenMap [("TOKEN_a", "1"), ("BAD", "2"), ("TOKEN_c", "3")] vaultReady =
      (Except.error (mapFailMsg (storeFailMsg (invalidFmtMsg "BAD"))),
        (storeFromTokenMap [("TOKEN_a", "1")] vaultReady).2) ∧
    (storeFromTokenMap [("TOKEN_a", "1")] vaultReady).1 = Except.ok () ∧
    (∀ e ∈ [("TOKEN_a", "1")],
      (lookupKV (storeFromTokenMap [("TOKEN_a", "1")] vaultReady).2.db e.1).isSome = true) :=
  c8_store_from_map_first_error vaultReady [("TOKEN_a", "1")] ("BAD", "2")
    [("TOKEN_c", "3")] rfl rfl (by decide) (by decide)

theorem string_append_nil (s : String) : s ++ "" = s := by
  cases s with
  | mk d =>
    show String.mk (d ++ []) = String.mk d
    rw [List.append_nil]

theorem stripPrefixCh_eq_append (p : List Char) :
    ∀ cs r, stripPrefixCh p cs = some r → cs = p ++ r := by
  induction p with
  | nil =>
    intro cs r h
    unfold stripPrefixCh at h
    injection h
  | cons t ts ih =>
    intro cs r h
    cases cs with
    | nil => exact absurd h (by unfold stripPrefixCh; simp)
    | cons c cs' =>
      unfold stripPrefixCh at h
      by_cases ht : t = c
      · rw [if_pos ht] at h
        rw [List.cons_append, ← ht, ih cs' r h]
      · rw [if_neg ht] at h
        cases h

theorem stripPrefixCh_self_append (p r : List Char) :
    stripPrefixCh p (p ++ r) = some r := by
  induction p with
  | nil => rfl
  | cons t ts ih =>
    show stripPrefixCh (t :: ts) (t :: (ts ++ r)) = some r
    unfold stripPrefixCh
    rw [if_pos rfl]
    exact ih

theorem lastTokIdx_none_cons (c : Char) (cs : List Char)
    (h : lastTokIdx (c :: cs) = none) :
    stripPrefixCh TOKEN6 (c :: cs) = none ∧ lastTokIdx cs = none := by
  unfold lastTokIdx at h
  cases h' : lastTokIdx cs with
  | some j =>
    rw [h'] at h
    cases h
  | none =>
    rw [h'] at h
    refine ⟨?_, rfl⟩
    cases hsp : stripPrefixCh TOKEN6 (c :: cs) with
    | some r2 =>
      rw [hsp] at h
      simp at h
    | none => rfl

theorem extractAux_nil : ∀ (fuel : Nat) (cs : List Char),
    lastTokIdx cs = none → extractAux fuel cs = [] := by
  intro fuel
  induction fuel with
  | zero =>
    intro cs h
    cases cs <;> rfl
  | succ f ih =>
    intro cs h
    cases cs with
    | nil => rfl
    | cons c rest =>
      obtain ⟨hs, hr⟩ := lastTokIdx_none_cons c rest h
      unfold extractAux
      rw [hs]
      exact ih rest hr

theorem extractTokens_nil (text : String) (h : lastTokIdx text.data = none) :
    extractTokens text = [] := by
  unfold extractTokens
  rw [extractAux_nil text.data.length text.data h]
  rfl

theorem lastTokIdx_some : ∀ (cs : List Char) (i : Nat),
    lastTokIdx cs = some i → ∃ r, cs.drop i = TOKEN6 ++ r := by
  intro cs
  induction cs with
  | nil => intro i h; cases h
  | cons c rest ih =>
    intro i h
    unfold lastTokIdx at h
    cases h' : lastTokIdx rest with
    | some j =>
      rw [h'] at h
      injection h with h2
      obtain ⟨r, hr⟩ := ih j h'
      refine ⟨r, ?_⟩
      rw [← h2]
      exact hr
    | none =>
      rw [h'] at h
      cases hsp : stripPrefixCh TOKEN6 (c :: rest) with
      | some r2 =>
        rw [hsp] at h
        simp only [Option.isSome_some, if_true] at h
        injection h with h2
        refine ⟨r2, ?_⟩
        rw [← h2, List.drop_zero]
        exact stripPrefixCh_eq_append TOKEN6 (c :: rest) r2 hsp
      | none =>
        rw [hsp] at h
        simp at h

theorem takeWhile_full (p : Char → Bool) :
    ∀ l : List Char, l.length ≤ (l.takeWhile p).length → l.all p = true := by
  intro l
  induction l with
  | nil => intro h; rfl
  | cons c rest ih =>
    intro h
    rw [List.takeWhile_cons] at h
    by_cases hc : p c = true
    · rw [if_pos hc] at h
      rw [List.length_cons, List.length_cons] at h
      rw [List.all_cons, hc, Bool.true_and]
      exact ih (Nat.le_of_succ_le_succ h)
    · rw [if_neg hc] at h
      simp at h

/-- Counterexample to C2 as stated: with `TOKEN_abc123 -> Alice` stored,
splitting `"Name: TOKEN_abc123 is safe"` into `"Name: TOK"` and
`"EN_abc123 is safe"` — a chunk boundary strictly inside the six-character
marker `TOKEN_` — streams to the literal, unresolved text, while a single
`process` call on the whole text resolves the token. -/
theorem c2_counterexample :
    streamTwo vaultStreamEx "Name: TOK" "EN_abc123 is safe" =
      "Name: TOKEN_abc123 is safe" ∧
    (process vaultStreamEx "Name: TOKEN_abc123 is safe").1 = "Name: Alice is safe" ∧
    streamTwo vaultStreamEx "Name: TOK" "EN_abc123 is safe" ≠
      (process vaultStreamEx "Name: TOKEN_abc123 is safe").1 :=
  ⟨by decide, by decide, by decide⟩

/-- Claim C2 (amended): `processStream` emits `process(s)` for a prefix `s`
of `buffer ++ chunk` and holds back exactly the remaining suffix as the new
buffer, and that held-back suffix is either empty or a `TOKEN_` marker whose
trailing alphanumeric run reaches the end of the combined text — so a token
whose complete marker has already arrived is never split across two
`process()` invocations, and on the spec's own example
(`"Name: TOKEN_ab"` then `"c123 is safe"`) the streamed output equals the
one-shot `process` output.  The original full equivalence fails: a chunk
boundary strictly inside the six-character marker itself is emitted
unbuffered and unresolved (see the counterexample), and even boundary-safe
splits can differ from one-shot output when one extracted token's name is a
proper prefix of another's. -/
theorem c2_stream_decomposition_and_example :
    (∀ (st : VaultState) (chunk buffer : String), ∃ s t : String,
      buffer ++ chunk = s ++ t ∧
      processStream st chunk buffer = (((process st s).1, t), (process st s).2) ∧
      (t = "" ∨ ((stripPrefixCh TOKEN6 t.data).isSome = true ∧
        (t.data.drop 6).all isAlnum = true))) ∧
    streamTwo vaultStreamEx "Name: TOKEN_ab" "c123 is safe" =
      (process vaultStreamEx "Name: TOKEN_abc123 is safe").1 ∧
    (process vaultStreamEx "Name: TOKEN_abc123 is safe").1 = "Name: Alice is safe" := by
  refine ⟨?_, by decide, by decide⟩
  intro st chunk buffer
  cases h : lastTokIdx (buffer ++ chunk).data with
  | none =>
    have hp : process st (buffer ++ chunk) = (buffer ++ chunk, st) :=
      process_extract_nil st (buffer ++ chunk) (extractTokens_nil (buffer ++ chunk) h)
    refine ⟨buffer ++ chunk, "", (string_append_nil (buffer ++ chunk)).symm, ?_, Or.inl rfl⟩
    simp only [processStream]
    rw [h, hp]
  | some i =>
    obtain ⟨r, hdrop⟩ := lastTokIdx_some (buffer ++ chunk).data i h
    by_cases hlt : i + 6 + (((buffer ++ chunk).data.drop (i + 6)).takeWhile isAlnum).length <
        (buffer ++ chunk).data.length
    · refine ⟨buffer ++ chunk, "", (string_append_nil (buffer ++ chunk)).symm, ?_, Or.inl rfl⟩
      simp only [processStream]
      rw [h]
      show (if i + 6 + (((buffer ++ chunk).data.drop (i + 6)).takeWhile isAlnum).length <
            (buffer ++ chunk).data.length then
          (((process st (buffer ++ chunk)).1, ""), (process st (buffer ++ chunk)).2)
          else
          (((process st (String.mk ((buffer ++ chunk).data.take i))).1,
              String.mk ((buffer ++ chunk).data.drop i)),
            (process st (String.mk ((buffer ++ chunk).data.take i))).2)) =
          (((process st (buffer ++ chunk)).1, ""), (process st (buffer ++ chunk)).2)
      rw [if_pos hlt]
    · refine ⟨String.mk ((buffer ++ chunk).data.take i),
        String.mk ((buffer ++ chunk).data.drop i), ?_, ?_, Or.inr ⟨?_, ?_⟩⟩
      · show buffer ++ chunk =
          String.mk ((buffer ++ chunk).data.take i ++ (buffer ++ chunk).data.drop i)
        rw [List.take_append_drop]
      · simp only [processStream]
        rw [h]
        show (if i + 6 + (((buffer ++ chunk).data.drop (i + 6)).takeWhile isAlnum).length <
              (buffer ++ chunk).data.length then
            (((process st (buffer ++ chunk)).1, ""), (process st (buffer ++ chunk)).2)
            else
            (((process st (String.mk ((buffer ++ chunk).data.take i))).1,
                String.mk ((buffer ++ chunk).data.drop i)),
              (process st (String.mk ((buffer ++ chunk).data.take i))).2)) =
            (((process st (String.mk ((buffer ++ chunk).data.take i))).1,
                String.mk ((buffer ++ chunk).data.drop i)),
              (process st (String.mk ((buffer ++ chunk).data.take i))).2)
        rw [if_neg hlt]
      · show (stripPrefixCh TOKEN6 ((buffer ++ chunk).data.drop i)).isSome = true
        rw [hdrop, stripPrefixCh_self_append]
        rfl
      · show (((buffer ++ chunk).data.drop i).drop 6).all isAlnum = true
        have h6 : ((buffer ++ chunk).data.drop i).drop 6 = r := by
          rw [hdrop]
          rfl
        rw [h6]
        have hdd : (buffer ++ chunk).data.drop (i + 6) = r := by
          rw [← List.drop_drop 6 i ((buffer ++ chunk).data), hdrop]
          rfl
        rw [hdd] at hlt
        have hlen : ((buffer ++ chunk).data.drop i).length =
            (buffer ++ chunk).data.length - i :=
          List.length_drop i (buffer ++ chunk).data
        have hlen2 : (buffer ++ chunk).data.length - i = 6 + r.length := by
          rw [← hlen, hdrop]
          rw [List.length_append]
          rfl
        have hle := Nat.not_lt.mp hlt
        apply takeWhile_full
        omega
